import Mathlib

/-!
Verification of the sniper news-intelligence repository.

The definitions below are a shallow embedding of the code: the frontend
components (SentimentPanel.jsx, NewsFeed.jsx, the ArchiveLookup
component) and the database initialisation script (init-db.sql).
Floating-point scores are modelled as rationals.  Backend components
that are absent from the repository snapshot (the ensemble scorer, the
ingest pipeline and the market-impact correlator) are modelled from the
specification; each such definition is marked "Modelled from the spec".
-/

namespace Sniper

/-! ## Definitions -/

/-! ### Sentiment labels and the score classification used by the frontend -/

inductive SentimentLabel where
  | stronglyPositive
  | positive
  | neutral
  | negative
  | stronglyNegative
deriving DecidableEq, Repr

/-- Badge classification applied to an article score in the Recent
Articles list of SentimentPanel.jsx: score greater than 0.1 gives
Positive, score less than -0.1 gives Negative, every other score gives
Neutral. -/
def classifyScore (s : ℚ) : SentimentLabel :=
  if s > 1/10 then .positive
  else if s < -(1/10) then .negative
  else .neutral

inductive TrendDirection where
  | up
  | down
  | flat
deriving DecidableEq, Repr

/-- getSentimentTrend of SentimentPanel.jsx: direction derived from the
average sentiment with the same strict thresholds at 0.1 and -0.1. -/
def getSentimentTrend (average : ℚ) : TrendDirection :=
  if average > 1/10 then .up
  else if average < -(1/10) then .down
  else .flat

/-! ### The news-feed filter (NewsFeed.jsx) and archive search -/

structure FeedArticle where
  title : String
  ticker_symbol : Option String
  sentiment_label : String
  sentiment_score : Option ℚ
  published_at : Int
deriving DecidableEq, Repr

/-- The JavaScript `includes` test on lowercased strings, used by the
ticker filters. -/
def jsIncludes (hay needle : String) : Bool :=
  hay.toLower.toList.tails.any (fun t => needle.toLower.toList.isPrefixOf t)

/-- First conjunct of the NewsFeed filter predicate: the article passes
when the sentiment filter is the string "all" or equals its label. -/
def matchesSentiment (filter : String) (a : FeedArticle) : Bool :=
  filter == "all" || a.sentiment_label == filter

/-- Second conjunct of the NewsFeed filter predicate: an empty ticker
filter passes everything; otherwise the article must carry a ticker
whose lowercased text contains the lowercased filter. -/
def matchesTicker (tickerFilter : String) (a : FeedArticle) : Bool :=
  tickerFilter == "" ||
    (a.ticker_symbol.map (fun t => jsIncludes t tickerFilter)).getD false

/-- filteredArticles of NewsFeed.jsx: keep the articles matching both
the sentiment filter and the ticker filter, preserving order. -/
def filteredArticles (filter tickerFilter : String) (articles : List FeedArticle) :
    List FeedArticle :=
  articles.filter (fun a => matchesSentiment filter a && matchesTicker tickerFilter a)

/-- Comparator used by searchArticles for the date sort: article b is
placed no earlier than article a exactly when the published time of b is
at most the published time of a (newest first). -/
def dateDescLe (a b : FeedArticle) : Bool :=
  b.published_at ≤ a.published_at

/-- Comparator for the sentiment sort: missing scores count as 0,
descending. -/
def sentimentDescLe (a b : FeedArticle) : Bool :=
  b.sentiment_score.getD 0 ≤ a.sentiment_score.getD 0

/-- Comparator for the title sort, ascending. -/
def titleAscLe (a b : FeedArticle) : Bool :=
  a.title ≤ b.title

/-- searchArticles of the ArchiveLookup component: filter the response
by ticker, then by sentiment label, then sort by the selected
comparator. -/
def searchArticles (selectedTicker sentimentFilter sortKey : String)
    (response : List FeedArticle) : List FeedArticle :=
  let afterTicker :=
    if selectedTicker == "" then response
    else response.filter
      (fun a => (a.ticker_symbol.map (fun t => jsIncludes t selectedTicker)).getD false)
  let afterSentiment :=
    if sentimentFilter == "all" then afterTicker
    else afterTicker.filter (fun a => a.sentiment_label == sentimentFilter)
  if sortKey == "date" then afterSentiment.mergeSort dateDescLe
  else if sortKey == "sentiment" then afterSentiment.mergeSort sentimentDescLe
  else if sortKey == "title" then afterSentiment.mergeSort titleAscLe
  else afterSentiment

/-! ### Archive pagination (ArchiveLookup component) -/

inductive PageAction where
  | previous
  | next
deriving DecidableEq, Repr

/-- The pagination buttons of ArchiveLookup: Previous sets the page to
max(1, currentPage - 1) and Next sets it to min(totalPages,
currentPage + 1). -/
def applyPageAction (totalPages currentPage : Int) : PageAction → Int
  | .previous => max 1 (currentPage - 1)
  | .next => min totalPages (currentPage + 1)

/-- Folding a sequence of pagination actions over the current page. -/
def runPageActions (totalPages currentPage : Int) (actions : List PageAction) : Int :=
  actions.foldl (applyPageAction totalPages) currentPage

/-! ### The sentiment ensemble scorer, modelled from the spec -/

/-- Modelled from the spec: the disagreement-penalty magnitude of the
ensemble combination rule.  The backend scorer is missing from the
repository snapshot; the spec leaves this policy constant to
configuration, so it is fixed here at 1/2. -/
def disagreementPenalty : ℚ := 1/2

/-- Modelled from the spec: the fallback confidence ceiling applied when
only one ensemble member succeeds.  The backend scorer is missing from
the repository snapshot; the spec leaves this constant to configuration,
so it is fixed here at 9/10. -/
def fallbackCeiling : ℚ := 9/10

/-- Modelled from the spec: combined score when both members succeed,
the confidence-weighted average of the member scores, each member
weighted by its own confidence re-normalized to sum to 1. -/
def ensembleScore (scoreA confA scoreB confB : ℚ) : ℚ :=
  (confA * scoreA + confB * scoreB) / (confA + confB)

/-- Modelled from the spec: combined confidence when both members
succeed, the weighted average of the member confidences under the same
re-normalized confidence weights, scaled down by a penalty proportional
to the absolute score disagreement. -/
def ensembleConfidence (scoreA confA scoreB confB : ℚ) : ℚ :=
  ((confA * confA + confB * confB) / (confA + confB)) *
    (1 - disagreementPenalty * |scoreA - scoreB|)

/-! ### The storage schema (init-db.sql) -/

/-- A row of the news_articles table, restricted to the columns the
claims mention.  The id column defaults to a generated random UUID,
modelled as an arbitrary natural number. -/
structure NewsArticleRow where
  id : Nat
  published_at : Int
  title : String
  url : String
  source : String
  sentiment_score : Option ℚ
  confidence_score : Option ℚ
deriving DecidableEq, Repr

/-- An index declaration of the init script. -/
structure IndexSpec where
  name : String
  table : String
  columns : List String
  isUnique : Bool
deriving DecidableEq, Repr

/-- The six indexes created by init-db.sql; every one is a plain CREATE
INDEX, none is declared UNIQUE. -/
def schemaIndexes : List IndexSpec :=
  [⟨"idx_news_articles_published_ticker", "news_articles",
      ["published_at", "ticker_symbol"], false⟩,
    ⟨"idx_news_articles_sentiment_published", "news_articles",
      ["sentiment_score", "published_at"], false⟩,
    ⟨"idx_news_articles_url", "news_articles", ["url"], false⟩,
    ⟨"idx_news_articles_title", "news_articles", ["title"], false⟩,
    ⟨"idx_sentiment_analyses_article_model", "sentiment_analyses",
      ["article_id", "model_name"], false⟩,
    ⟨"idx_market_impacts_ticker_time", "market_impacts",
      ["ticker_symbol", "measurement_time"], false⟩]

/-- The declared primary key of news_articles: PRIMARY KEY (id,
published_at). -/
def newsArticlesPrimaryKey : List String := ["id", "published_at"]

/-- The time column passed to create_hypertable for news_articles. -/
def hypertablePartitionColumn : String := "published_at"

/-- A list of news_articles rows satisfies the uniqueness the schema
declares, which is exactly the primary key (id, published_at): no two
rows agree on both columns.  No other uniqueness is declared. -/
def schemaValidStore (rows : List NewsArticleRow) : Prop :=
  rows.Pairwise (fun r1 r2 => r1.id ≠ r2.id ∨ r1.published_at ≠ r2.published_at)

/-- Two rows with the same url (hence the same dedup key) and the same
published time but different generated ids. -/
def dupRow1 : NewsArticleRow :=
  ⟨1, 100, "headline", "https://example.com/a", "reuters", none, none⟩

/-- Second row: identical url and published time, different id. -/
def dupRow2 : NewsArticleRow :=
  ⟨2, 100, "headline updated", "https://example.com/a", "reuters", none, none⟩

/-! ### Score domains along the pipeline, modelled from the spec -/

/-- A stored article as the pipeline sees it: the sentiment fields are
absent until scoring succeeds. -/
structure StoredArticle where
  url : String
  published_at : Int
  sentiment_score : Option ℚ
  confidence_score : Option ℚ
  is_processed : Bool
deriving DecidableEq, Repr

/-- Modelled from the spec: the operations that write sentiment fields.
The backend ingest and scoring pipeline is missing from the repository
snapshot.  Ingestion stores an unscored article (deduplicating on url);
a both-members success writes the ensemble combination; a single-member
success writes that member result with the confidence capped at the
fallback ceiling; a total failure leaves the store unchanged. -/
inductive PipelineOp where
  | ingest (url : String) (published_at : Int)
  | scoreBoth (i : Nat) (sa ca sb cb : ℚ)
  | scoreSingle (i : Nat) (s c : ℚ)
  | scoreFailed (i : Nat)
deriving DecidableEq, Repr

/-- Apply a function to the element at one position, if any. -/
def modifyAt {α : Type} (f : α → α) : Nat → List α → List α
  | _, [] => []
  | 0, a :: as => f a :: as
  | n + 1, a :: as => a :: modifyAt f n as

/-- Write the sentiment fields of one article and mark it processed. -/
def scoreFields (sc conf : ℚ) (a : StoredArticle) : StoredArticle :=
  { a with sentiment_score := some sc, confidence_score := some conf,
           is_processed := true }

/-- Modelled from the spec: one pipeline step over the article store. -/
def applyOp (store : List StoredArticle) : PipelineOp → List StoredArticle
  | .ingest url pub =>
      if store.any (fun a => a.url == url) then store
      else { url := url, published_at := pub, sentiment_score := none,
             confidence_score := none, is_processed := false } :: store
  | .scoreBoth i sa ca sb cb =>
      modifyAt
        (scoreFields (ensembleScore sa ca sb cb) (ensembleConfidence sa ca sb cb))
        i store
  | .scoreSingle i s c => modifyAt (scoreFields s (min c fallbackCeiling)) i store
  | .scoreFailed _ => store

/-- The external-classifier contract: a member returns a score in
[-1, 1] and a confidence in [0, 1]. -/
def memberValid (s c : ℚ) : Prop := -1 ≤ s ∧ s ≤ 1 ∧ 0 ≤ c ∧ c ≤ 1

/-- An operation is valid when the member outputs it carries respect the
external-classifier contract. -/
def opValid : PipelineOp → Prop
  | .ingest _ _ => True
  | .scoreBoth _ sa ca sb cb => memberValid sa ca ∧ memberValid sb cb
  | .scoreSingle _ s c => memberValid s c
  | .scoreFailed _ => True

/-- The declared domains of the stored sentiment fields. -/
def scoredInDomain (a : StoredArticle) : Prop :=
  (∀ s ∈ a.sentiment_score, -1 ≤ s ∧ s ≤ 1) ∧
  (∀ c ∈ a.confidence_score, 0 ≤ c ∧ c ≤ 1)

/-- Every article of the store has its sentiment fields, when present,
inside their declared domains. -/
def storeInvariant (store : List StoredArticle) : Prop :=
  ∀ a ∈ store, scoredInDomain a

/-! ### Market impact records, modelled from the spec -/

/-- A row of the market_impacts table, restricted to the columns the
claims mention. -/
structure MarketImpactRow where
  article_id : Nat
  ticker_symbol : String
  price_before : Option ℚ
  price_after : Option ℚ
  price_change_percent : Option ℚ
  impact_window_hours : Int
deriving DecidableEq, Repr

/-- Outcome of one correlation attempt: a full committed record or a
skip. -/
inductive CorrelateOutcome where
  | committed (r : MarketImpactRow)
  | insufficientPriceData
deriving DecidableEq, Repr

/-- Modelled from the spec: the market-impact correlator.  The backend
correlator is missing from the repository snapshot.  It reads the price
feed at the publication time and at the end of the window; when both
observations exist it commits one full record holding both prices, and
otherwise it commits nothing and reports InsufficientPriceData. -/
def correlate (priceAt : Int → Option ℚ) (articleId : Nat) (tSym : String)
    (publishedAt windowHours : Int) : CorrelateOutcome :=
  match priceAt publishedAt, priceAt (publishedAt + windowHours * 3600) with
  | some p0, some p1 =>
      .committed
        { article_id := articleId, ticker_symbol := tSym,
          price_before := some p0, price_after := some p1,
          price_change_percent := some ((p1 - p0) / p0 * 100),
          impact_window_hours := windowHours }
  | _, _ => .insufficientPriceData

/-- Modelled from the spec: a correlation job either runs to completion
or is abandoned mid-flight; an abandoned job commits nothing. -/
inductive CorrelationJob where
  | run (priceAt : Int → Option ℚ) (articleId : Nat) (tSym : String)
      (publishedAt windowHours : Int)
  | abandoned

/-- One job against the market_impacts store: only a completed and
successful correlation appends a record. -/
def applyJob (store : List MarketImpactRow) : CorrelationJob → List MarketImpactRow
  | .run priceAt articleId tSym publishedAt windowHours =>
      match correlate priceAt articleId tSym publishedAt windowHours with
      | .committed r => r :: store
      | .insufficientPriceData => store
  | .abandoned => store

/-- The no-partial-snapshot shape: both prices present or both null. -/
def fullSnapshot (r : MarketImpactRow) : Prop :=
  (r.price_before.isSome = true ∧ r.price_after.isSome = true) ∨
  (r.price_before = none ∧ r.price_after = none)

/-- Every record of the market_impacts store is a full snapshot. -/
def impactInvariant (store : List MarketImpactRow) : Prop :=
  ∀ r ∈ store, fullSnapshot r

/-! ### Aggregation views on an absent dataset (SentimentPanel.jsx) -/

/-- The sentiment-distribution shape of the trends summary; each count
may be absent in the payload, and the helpers fall back to 0. -/
structure SentimentDistribution where
  positive : Option Nat
  negative : Option Nat
  neutral : Option Nat
deriving DecidableEq, Repr

/-- The summary of the sentiment-trends payload. -/
structure TrendsSummary where
  total_articles : Nat
  average_sentiment : ℚ
  sentiment_distribution : Option SentimentDistribution
deriving DecidableEq, Repr

/-- One trend point of the sentiment-trends payload. -/
structure TrendPoint where
  published_at : Int
  sentiment_score : ℚ
  title : String
  ticker : Option String
deriving DecidableEq, Repr

/-- The sentiment-trends payload: points plus an optional summary. -/
structure TrendsData where
  trends : List TrendPoint
  summary : Option TrendsSummary
deriving DecidableEq, Repr

/-- getSentimentSummary of SentimentPanel.jsx: the zeroed summary when
the payload or its summary is absent, the payload summary otherwise. -/
def getSentimentSummary (trendsData : Option TrendsData) : TrendsSummary :=
  match trendsData with
  | none => ⟨0, 0, some ⟨some 0, some 0, some 0⟩⟩
  | some td =>
      match td.summary with
      | none => ⟨0, 0, some ⟨some 0, some 0, some 0⟩⟩
      | some s => s

/-- One slice of the distribution pie chart. -/
structure PieEntry where
  name : String
  value : Nat
  color : String
deriving DecidableEq, Repr

/-- formatPieData of SentimentPanel.jsx: three zero-valued slices when
the summary or its distribution is absent; otherwise the three counts
with 0 substituted for a missing count. -/
def formatPieData (summary : Option TrendsSummary) : List PieEntry :=
  match summary with
  | none =>
      [⟨"Positive", 0, "#10B981"⟩, ⟨"Negative", 0, "#EF4444"⟩,
        ⟨"Neutral", 0, "#6B7280"⟩]
  | some s =>
      match s.sentiment_distribution with
      | none =>
          [⟨"Positive", 0, "#10B981"⟩, ⟨"Negative", 0, "#EF4444"⟩,
            ⟨"Neutral", 0, "#6B7280"⟩]
      | some d =>
          [⟨"Positive", d.positive.getD 0, "#10B981"⟩,
            ⟨"Negative", d.negative.getD 0, "#EF4444"⟩,
            ⟨"Neutral", d.neutral.getD 0, "#6B7280"⟩]

/-- The stats view shape with the initial zeroed state of the Dashboard
component: zero totals, zero average and an empty ticker list. -/
structure StatsView where
  total_articles : Nat
  processed_articles : Nat
  processing_rate : ℚ
  average_sentiment : ℚ
  top_tickers : List String
deriving DecidableEq, Repr

/-- The initial Dashboard stats state. -/
def initialStats : StatsView := ⟨0, 0, 0, 0, []⟩

/-! ## Theorems -/

/-! ### Helper lemmas -/

/-- Helper for C8: merge sorting with the date comparator yields a list
whose adjacent published times are non-increasing. -/
theorem mergeSort_dateDescLe_chain (l : List FeedArticle) :
    (l.mergeSort dateDescLe).Chain' (fun a b => b.published_at ≤ a.published_at) := by
  have hp : (l.mergeSort dateDescLe).Pairwise (fun a b => dateDescLe a b = true) :=
    List.sorted_mergeSort
      (fun a b c hab hbc => by
        simp only [dateDescLe, decide_eq_true_eq] at *; omega)
      (fun a b => by
        simp only [dateDescLe]
        by_cases h : b.published_at ≤ a.published_at <;> simp [h] <;> omega)
      l
  exact (hp.imp (fun hab => by
    simpa only [dateDescLe, decide_eq_true_eq] using hab)).chain'

/-- Helper: in a schema-valid store, agreement on the primary key
columns forces row equality. -/
theorem schemaValidStore_key_unique (rows : List NewsArticleRow)
    (h : schemaValidStore rows) :
    ∀ r1 ∈ rows, ∀ r2 ∈ rows,
      r1.id = r2.id → r1.published_at = r2.published_at → r1 = r2 := by
  intro r1 h1 r2 h2 hid hpub
  by_cases heq : r1 = r2
  · exact heq
  · have hsymm : Symmetric
        (fun r1 r2 : NewsArticleRow =>
          r1.id ≠ r2.id ∨ r1.published_at ≠ r2.published_at) :=
      fun a b hab => hab.imp Ne.symm Ne.symm
    rcases h.forall hsymm h1 h2 heq with hne | hne
    · exact absurd hid hne
    · exact absurd hpub hne

/-- Helper: the combined score stays in the score domain when the member
scores do and the weights are non-negative.  When both confidences are
zero the rational division yields zero, which is also in the domain. -/
theorem ensembleScore_range (sa ca sb cb : ℚ)
    (hsa1 : -1 ≤ sa) (hsa2 : sa ≤ 1) (hsb1 : -1 ≤ sb) (hsb2 : sb ≤ 1)
    (hca : 0 ≤ ca) (hcb : 0 ≤ cb) :
    -1 ≤ ensembleScore sa ca sb cb ∧ ensembleScore sa ca sb cb ≤ 1 := by
  rcases eq_or_lt_of_le (by linarith : (0 : ℚ) ≤ ca + cb) with h0 | hd
  · have hca0 : ca = 0 := by linarith
    have hcb0 : cb = 0 := by linarith
    rw [ensembleScore, hca0, hcb0]
    norm_num
  · constructor
    · rw [ensembleScore, le_div_iff₀ hd]
      nlinarith [mul_le_mul_of_nonneg_left hsa1 hca,
        mul_le_mul_of_nonneg_left hsb1 hcb]
    · rw [ensembleScore, div_le_iff₀ hd]
      nlinarith [mul_le_mul_of_nonneg_left hsa2 hca,
        mul_le_mul_of_nonneg_left hsb2 hcb]

/-- Helper: the combined confidence stays in the confidence domain when
the member outputs are in their domains. -/
theorem ensembleConfidence_range (sa ca sb cb : ℚ)
    (hsa1 : -1 ≤ sa) (hsa2 : sa ≤ 1) (hsb1 : -1 ≤ sb) (hsb2 : sb ≤ 1)
    (hca1 : 0 ≤ ca) (hca2 : ca ≤ 1) (hcb1 : 0 ≤ cb) (hcb2 : cb ≤ 1) :
    0 ≤ ensembleConfidence sa ca sb cb ∧ ensembleConfidence sa ca sb cb ≤ 1 := by
  have habs2 : |sa - sb| ≤ 2 := by
    rw [abs_le]
    constructor <;> linarith
  have habs0 : 0 ≤ |sa - sb| := abs_nonneg _
  have hfac0 : 0 ≤ 1 - disagreementPenalty * |sa - sb| := by
    rw [disagreementPenalty]
    linarith
  have hfac1 : 1 - disagreementPenalty * |sa - sb| ≤ 1 := by
    rw [disagreementPenalty]
    linarith
  have hw0 : 0 ≤ (ca * ca + cb * cb) / (ca + cb) := by positivity
  have hw1 : (ca * ca + cb * cb) / (ca + cb) ≤ 1 := by
    rcases eq_or_lt_of_le (by linarith : (0 : ℚ) ≤ ca + cb) with h0 | hd
    · have hca0 : ca = 0 := by linarith
      have hcb0 : cb = 0 := by linarith
      rw [hca0, hcb0]
      norm_num
    · rw [div_le_one hd]
      nlinarith
  rw [ensembleConfidence]
  exact ⟨mul_nonneg hw0 hfac0, mul_le_one₀ hw1 hfac0 hfac1⟩

/-- Helper: membership after a positional modification. -/
theorem mem_modifyAt {α : Type} (f : α → α) (n : Nat) (l : List α) (a : α)
    (h : a ∈ modifyAt f n l) : a ∈ l ∨ ∃ b ∈ l, a = f b := by
  induction l generalizing n with
  | nil => simp [modifyAt] at h
  | cons x xs ih =>
      cases n with
      | zero =>
          rw [modifyAt] at h
          rcases List.mem_cons.mp h with rfl | h'
          · exact Or.inr ⟨x, List.mem_cons_self x xs, rfl⟩
          · exact Or.inl (List.mem_cons_of_mem _ h')
      | succ m =>
          rw [modifyAt] at h
          rcases List.mem_cons.mp h with rfl | h'
          · exact Or.inl (List.mem_cons_self a xs)
          · rcases ih m h' with h2 | ⟨b, hb, hab⟩
            · exact Or.inl (List.mem_cons_of_mem _ h2)
            · exact Or.inr ⟨b, List.mem_cons_of_mem _ hb, hab⟩

/-- Helper: one valid pipeline step preserves the score-domain
invariant. -/
theorem applyOp_preserves (store : List StoredArticle) (op : PipelineOp)
    (hop : opValid op) (h : storeInvariant store) :
    storeInvariant (applyOp store op) := by
  cases op with
  | ingest url pub =>
      intro a ha
      rw [applyOp] at ha
      split at ha
      · exact h a ha
      · rcases List.mem_cons.mp ha with rfl | ha'
        · exact ⟨by intro x hx; simp at hx, by intro x hx; simp at hx⟩
        · exact h a ha'
  | scoreBoth i sa ca sb cb =>
      intro a ha
      rw [applyOp] at ha
      rcases mem_modifyAt _ _ _ _ ha with ha' | ⟨b, _, rfl⟩
      · exact h a ha'
      · obtain ⟨⟨hA1, hA2, hA3, hA4⟩, hB1, hB2, hB3, hB4⟩ := hop
        have hs := ensembleScore_range sa ca sb cb hA1 hA2 hB1 hB2 hA3 hB3
        have hc := ensembleConfidence_range sa ca sb cb hA1 hA2 hB1 hB2 hA3 hA4 hB3 hB4
        constructor
        · intro x hx
          simp [scoreFields] at hx
          exact hx ▸ hs
        · intro x hx
          simp [scoreFields] at hx
          exact hx ▸ hc
  | scoreSingle i s c =>
      intro a ha
      rw [applyOp] at ha
      rcases mem_modifyAt _ _ _ _ ha with ha' | ⟨b, _, rfl⟩
      · exact h a ha'
      · obtain ⟨h1, h2, h3, h4⟩ := hop
        constructor
        · intro x hx
          simp [scoreFields] at hx
          exact hx ▸ ⟨h1, h2⟩
        · intro x hx
          simp [scoreFields] at hx
          refine hx ▸ ⟨le_min h3 (by rw [fallbackCeiling]; norm_num), ?_⟩
          exact le_trans (min_le_left _ _) h4
  | scoreFailed i =>
      exact h

/-- Helper: one correlation job preserves the snapshot invariant. -/
theorem applyJob_preserves (store : List MarketImpactRow)
    (j : CorrelationJob) (h : impactInvariant store) :
    impactInvariant (applyJob store j) := by
  cases j with
  | abandoned => exact h
  | run priceAt articleId tSym publishedAt windowHours =>
      intro r hr
      rw [applyJob, correlate] at hr
      cases hp0 : priceAt publishedAt with
      | none =>
          rw [hp0] at hr
          exact h r hr
      | some p0 =>
          cases hp1 : priceAt (publishedAt + windowHours * 3600) with
          | none =>
              rw [hp0, hp1] at hr
              exact h r hr
          | some p1 =>
              rw [hp0, hp1] at hr
              rcases List.mem_cons.mp hr with rfl | hr'
              · exact Or.inl ⟨rfl, rfl⟩
              · exact h r hr'

/-! ### C1: score-to-label classification -/

/-- C1 (corrected): the score classification the code applies is
three-valued with strict thresholds: score above 0.1 is positive, score
below -0.1 is negative, everything in between (boundaries included) is
neutral; no score ever classifies as strongly positive or strongly
negative, and the trend direction uses the same strict thresholds. -/
theorem C1_classification_three_way (s : ℚ) :
    (classifyScore s = .positive ↔ 1/10 < s) ∧
    (classifyScore s = .negative ↔ s < -(1/10)) ∧
    (classifyScore s = .neutral ↔ -(1/10) ≤ s ∧ s ≤ 1/10) ∧
    classifyScore s ≠ .stronglyPositive ∧
    classifyScore s ≠ .stronglyNegative ∧
    (getSentimentTrend s = .up ↔ 1/10 < s) ∧
    (getSentimentTrend s = .down ↔ s < -(1/10)) := by
  unfold classifyScore getSentimentTrend
  split_ifs with h1 h2 <;> simp_all
  linarith

/-- C1 counterexample: the claim says score 0.5 classifies as strongly
positive and score 0.1 as positive; the code classifies 0.5 as positive
and 0.1 as neutral. -/
theorem C1_counterexample :
    classifyScore (1/2) = SentimentLabel.positive ∧
    classifyScore (1/2) ≠ SentimentLabel.stronglyPositive ∧
    classifyScore (1/10) = SentimentLabel.neutral := by
  have hpos : classifyScore (1/2) = SentimentLabel.positive := by
    norm_num [classifyScore]
  refine ⟨hpos, ?_, by norm_num [classifyScore]⟩
  rw [hpos]
  intro hcontra
  exact SentimentLabel.noConfusion hcontra

/-! ### C2: the ensemble combination rule -/

/-- C2 (amended): with both member confidences positive, the combined
score is the weighted average of the member scores with weights summing
to 1, lies between the two member scores, and sits at least as close to
the higher-confidence member as to the other; the combined confidence is
strictly below the weighted average of the member confidences whenever
the member scores disagree (strictly below the simple average does not
hold in general). -/
theorem C2_ensemble_combination (sa ca sb cb : ℚ)
    (hca : 0 < ca) (hcb : 0 < cb) :
    ensembleScore sa ca sb cb = (ca / (ca + cb)) * sa + (cb / (ca + cb)) * sb ∧
    ca / (ca + cb) + cb / (ca + cb) = 1 ∧
    min sa sb ≤ ensembleScore sa ca sb cb ∧
    ensembleScore sa ca sb cb ≤ max sa sb ∧
    (cb ≤ ca → |ensembleScore sa ca sb cb - sa| ≤ |ensembleScore sa ca sb cb - sb|) ∧
    (sa ≠ sb →
      ensembleConfidence sa ca sb cb < (ca * ca + cb * cb) / (ca + cb)) := by
  have hd : 0 < ca + cb := by linarith
  refine ⟨?_, ?_, ?_, ?_, ?_, ?_⟩
  · rw [ensembleScore]
    field_simp
  · field_simp
  · rw [ensembleScore, le_div_iff₀ hd]
    nlinarith [mul_le_mul_of_nonneg_left (min_le_left sa sb) hca.le,
      mul_le_mul_of_nonneg_left (min_le_right sa sb) hcb.le]
  · rw [ensembleScore, div_le_iff₀ hd]
    nlinarith [mul_le_mul_of_nonneg_left (le_max_left sa sb) hca.le,
      mul_le_mul_of_nonneg_left (le_max_right sa sb) hcb.le]
  · intro hba
    have e1 : ensembleScore sa ca sb cb - sa = cb * (sb - sa) / (ca + cb) := by
      rw [ensembleScore]
      field_simp
      ring
    have e2 : ensembleScore sa ca sb cb - sb = ca * (sa - sb) / (ca + cb) := by
      rw [ensembleScore]
      field_simp
      ring
    rw [e1, e2, abs_div, abs_div, abs_of_pos hd, abs_mul, abs_mul,
      abs_of_pos hca, abs_of_pos hcb, abs_sub_comm sb sa]
    gcongr
  · intro hne
    have habs : 0 < |sa - sb| := abs_pos.mpr (sub_ne_zero.mpr hne)
    have hw : 0 < (ca * ca + cb * cb) / (ca + cb) := by positivity
    rw [ensembleConfidence, disagreementPenalty]
    nlinarith [mul_pos hw habs]

/-- C2 witness: the combination properties at the member outputs named
by the spec, score 0.8 with confidence 0.9 and score 0.2 with confidence
0.5. -/
theorem C2_ensemble_witness :
    (0 : ℚ) < 9/10 ∧ (0 : ℚ) < 1/2 ∧
      (ensembleScore (4/5) (9/10) (1/5) (1/2) =
          ((9:ℚ)/10 / (9/10 + 1/2)) * (4/5) + ((1:ℚ)/2 / (9/10 + 1/2)) * (1/5) ∧
        (9:ℚ)/10 / (9/10 + 1/2) + (1:ℚ)/2 / (9/10 + 1/2) = 1 ∧
        min ((4:ℚ)/5) (1/5) ≤ ensembleScore (4/5) (9/10) (1/5) (1/2) ∧
        ensembleScore (4/5) (9/10) (1/5) (1/2) ≤ max ((4:ℚ)/5) (1/5) ∧
        ((1:ℚ)/2 ≤ 9/10 →
          |ensembleScore (4/5) (9/10) (1/5) (1/2) - 4/5| ≤
            |ensembleScore (4/5) (9/10) (1/5) (1/2) - 1/5|) ∧
        ((4:ℚ)/5 ≠ 1/5 →
          ensembleConfidence (4/5) (9/10) (1/5) (1/2) <
            ((9:ℚ)/10 * (9/10) + (1:ℚ)/2 * (1/2)) / (9/10 + 1/2))) :=
  ⟨by norm_num, by norm_num,
    C2_ensemble_combination (4/5) (9/10) (1/5) (1/2) (by norm_num) (by norm_num)⟩

/-- C2 counterexample: member outputs with scores 0.501 and 0.5 (which
disagree) and confidences 0.99 and 0.01, all inside their declared
domains, for which the combined confidence is not strictly less than the
simple average of the two confidences. -/
theorem C2_counterexample :
    (501/1000 : ℚ) ≠ 1/2 ∧
    (0 : ℚ) < 99/100 ∧ (99/100 : ℚ) ≤ 1 ∧ (0 : ℚ) < 1/100 ∧ (1/100 : ℚ) ≤ 1 ∧
    ¬ ensembleConfidence (501/1000) (99/100) (1/2) (1/100) <
        (99/100 + 1/100) / 2 := by
  refine ⟨by norm_num, by norm_num, by norm_num, by norm_num, by norm_num, ?_⟩
  have habs : |(501/1000 : ℚ) - 1/2| = 1/1000 := by
    rw [abs_of_pos] <;> norm_num
  rw [ensembleConfidence, disagreementPenalty, habs]
  norm_num

/-! ### C3: no storage-layer unique constraint on the dedup key -/

/-- C3 counterexample: the store holding both duplicate-url rows
satisfies every uniqueness the schema declares, the two rows share the
dedup key, yet they are distinct rows, and no index of the schema is
unique. -/
theorem C3_counterexample :
    schemaValidStore [dupRow1, dupRow2] ∧
    dupRow1.url = dupRow2.url ∧ dupRow1 ≠ dupRow2 ∧
    ∀ i ∈ schemaIndexes, i.isUnique = false := by
  refine ⟨?_, rfl, ?_, ?_⟩
  · simp [schemaValidStore, dupRow1, dupRow2]
  · simp [dupRow1, dupRow2]
  · simp [schemaIndexes]

/-- C3 (amended): the storage layer declares no unique constraint on the
dedup key; its only uniqueness is the primary key (id, published_at), so
equal ids and published times imply the same row, but equal dedup keys
do not — distinct rows with the same url can coexist in a schema-valid
store.  Idempotent ingestion is therefore not enforced by a
storage-layer unique constraint. -/
theorem C3_no_unique_dedup_constraint (rows : List NewsArticleRow)
    (h : schemaValidStore rows) :
    (∀ i ∈ schemaIndexes, i.isUnique = false) ∧
    (∀ r1 ∈ rows, ∀ r2 ∈ rows,
      r1.id = r2.id → r1.published_at = r2.published_at → r1 = r2) ∧
    ¬ (∀ rows2 : List NewsArticleRow, schemaValidStore rows2 →
        ∀ r1 ∈ rows2, ∀ r2 ∈ rows2, r1.url = r2.url → r1 = r2) := by
  refine ⟨by simp [schemaIndexes], schemaValidStore_key_unique rows h, ?_⟩
  intro hall
  have hvalid : schemaValidStore [dupRow1, dupRow2] := by
    simp [schemaValidStore, dupRow1, dupRow2]
  have : dupRow1 = dupRow2 :=
    hall [dupRow1, dupRow2] hvalid dupRow1 (by simp) dupRow2 (by simp) rfl
  simp [dupRow1, dupRow2] at this

/-- C3 witness: the amended statement applied to the singleton store. -/
theorem C3_no_unique_dedup_witness :
    schemaValidStore [dupRow1] ∧
    ((∀ i ∈ schemaIndexes, i.isUnique = false) ∧
      (∀ r1 ∈ [dupRow1], ∀ r2 ∈ [dupRow1],
        r1.id = r2.id → r1.published_at = r2.published_at → r1 = r2) ∧
      ¬ (∀ rows2 : List NewsArticleRow, schemaValidStore rows2 →
          ∀ r1 ∈ rows2, ∀ r2 ∈ rows2, r1.url = r2.url → r1 = r2)) :=
  ⟨by simp [schemaValidStore],
    C3_no_unique_dedup_constraint [dupRow1] (by simp [schemaValidStore])⟩

/-! ### C4: stored score domains -/

/-- C4: starting from a store whose sentiment fields are in their
declared domains, every sequence of valid pipeline operations — ingest,
both-member scoring, degraded single-member scoring, total failure —
keeps every stored sentiment score in [-1, 1] and every stored
confidence in [0, 1]. -/
theorem C4_score_domain_invariant (ops : List PipelineOp)
    (store : List StoredArticle) (hstore : storeInvariant store)
    (hops : ∀ op ∈ ops, opValid op) :
    storeInvariant (ops.foldl applyOp store) := by
  induction ops generalizing store with
  | nil => exact hstore
  | cons op ops ih =>
      exact ih (applyOp store op)
        (applyOp_preserves store op (hops op (List.mem_cons_self op ops)) hstore)
        (fun o ho => hops o (List.mem_cons_of_mem _ ho))

/-- C4 witness: an ingest followed by a both-member scoring with member
outputs inside the classifier domains, run from the empty store. -/
theorem C4_score_domain_witness :
    storeInvariant [] ∧
    (∀ op ∈ [PipelineOp.ingest "https://example.com/a" 0,
        PipelineOp.scoreBoth 0 (1/2) (9/10) (-(1/4)) (1/2)], opValid op) ∧
    storeInvariant
      ([PipelineOp.ingest "https://example.com/a" 0,
          PipelineOp.scoreBoth 0 (1/2) (9/10) (-(1/4)) (1/2)].foldl applyOp []) :=
  ⟨by intro a ha; simp at ha,
    by
      intro op hop
      rcases List.mem_cons.mp hop with rfl | hop
      · trivial
      · rcases List.mem_cons.mp hop with rfl | hop
        · refine ⟨⟨by norm_num, by norm_num, by norm_num, by norm_num⟩,
            by norm_num, by norm_num, by norm_num, by norm_num⟩
        · simp at hop,
    C4_score_domain_invariant _ [] (by intro a ha; simp at ha)
      (by
        intro op hop
        rcases List.mem_cons.mp hop with rfl | hop
        · trivial
        · rcases List.mem_cons.mp hop with rfl | hop
          · refine ⟨⟨by norm_num, by norm_num, by norm_num, by norm_num⟩,
              by norm_num, by norm_num, by norm_num, by norm_num⟩
          · simp at hop)⟩

/-! ### C5: the storage partition key -/

/-- C5 counterexample: the declared primary key is not (url,
published_at), and a schema-valid store can hold two distinct rows that
agree on both the dedup key and the published time, so that pair is not
the storage key. -/
theorem C5_counterexample :
    newsArticlesPrimaryKey ≠ ["url", "published_at"] ∧
    schemaValidStore [dupRow1, dupRow2] ∧
    dupRow1.url = dupRow2.url ∧ dupRow1.published_at = dupRow2.published_at ∧
    dupRow1 ≠ dupRow2 := by
  refine ⟨by simp [newsArticlesPrimaryKey], ?_, rfl, rfl, ?_⟩
  · simp [schemaValidStore, dupRow1, dupRow2]
  · simp [dupRow1, dupRow2]

/-- C5 (amended): news_articles is a hypertable partitioned on
published_at, and each stored row is keyed by (id, published_at) where
id is a generated UUID, not the dedup key: key-column agreement forces
row equality, while (url, published_at) agreement does not. -/
theorem C5_partition_and_key (rows : List NewsArticleRow)
    (h : schemaValidStore rows) :
    hypertablePartitionColumn = "published_at" ∧
    newsArticlesPrimaryKey = ["id", "published_at"] ∧
    (∀ r1 ∈ rows, ∀ r2 ∈ rows,
      r1.id = r2.id → r1.published_at = r2.published_at → r1 = r2) ∧
    ¬ (∀ rows2 : List NewsArticleRow, schemaValidStore rows2 →
        ∀ r1 ∈ rows2, ∀ r2 ∈ rows2,
          r1.url = r2.url → r1.published_at = r2.published_at → r1 = r2) := by
  refine ⟨rfl, rfl, schemaValidStore_key_unique rows h, ?_⟩
  intro hall
  have hvalid : schemaValidStore [dupRow1, dupRow2] := by
    simp [schemaValidStore, dupRow1, dupRow2]
  have : dupRow1 = dupRow2 :=
    hall [dupRow1, dupRow2] hvalid dupRow1 (by simp) dupRow2 (by simp) rfl rfl
  simp [dupRow1, dupRow2] at this

/-- C5 witness: the amended statement applied to the singleton store. -/
theorem C5_partition_and_key_witness :
    schemaValidStore [dupRow2] ∧
    (hypertablePartitionColumn = "published_at" ∧
      newsArticlesPrimaryKey = ["id", "published_at"] ∧
      (∀ r1 ∈ [dupRow2], ∀ r2 ∈ [dupRow2],
        r1.id = r2.id → r1.published_at = r2.published_at → r1 = r2) ∧
      ¬ (∀ rows2 : List NewsArticleRow, schemaValidStore rows2 →
          ∀ r1 ∈ rows2, ∀ r2 ∈ rows2,
            r1.url = r2.url → r1.published_at = r2.published_at → r1 = r2)) :=
  ⟨by simp [schemaValidStore],
    C5_partition_and_key [dupRow2] (by simp [schemaValidStore])⟩

/-! ### C6: no partial price snapshots -/

/-- C6: starting from a store of full snapshots, every sequence of
correlation jobs — including jobs that find no price data and jobs
abandoned mid-flight — leaves every persisted market-impact record with
price_before and price_after either both present or both null. -/
theorem C6_no_partial_price_snapshots (jobs : List CorrelationJob)
    (store : List MarketImpactRow) (h : impactInvariant store) :
    impactInvariant (jobs.foldl applyJob store) := by
  induction jobs generalizing store with
  | nil => exact h
  | cons j js ih => exact ih (applyJob store j) (applyJob_preserves store j h)

/-- C6 witness: a successful correlation, a data-starved one and an
abandoned one, run from the empty store. -/
theorem C6_no_partial_price_witness :
    impactInvariant [] ∧
    impactInvariant
      ([CorrelationJob.run
          (fun t => if t = 0 then some 10 else if t = 3600 then some 11 else none)
          1 "AAPL" 0 1,
        CorrelationJob.run (fun _ => none) 2 "TSLA" 0 24,
        CorrelationJob.abandoned].foldl applyJob []) :=
  ⟨by intro r hr; simp at hr,
    C6_no_partial_price_snapshots _ [] (by intro r hr; simp at hr)⟩

/-! ### C7: aggregation on an empty or absent dataset -/

/-- C7: on an absent or empty dataset the aggregation helpers return the
zeroed structures instead of failing: the summary helper returns zero
totals, zero average and an all-zero distribution whenever the payload
or its summary is missing, the pie helper returns three zero slices
whenever the summary, its distribution or the individual counts are
missing, and the initial stats state is zero totals, zero average and an
empty ticker list. -/
theorem C7_empty_dataset_zeroed :
    getSentimentSummary none = ⟨0, 0, some ⟨some 0, some 0, some 0⟩⟩ ∧
    (∀ trends : List TrendPoint,
      getSentimentSummary (some ⟨trends, none⟩) =
        ⟨0, 0, some ⟨some 0, some 0, some 0⟩⟩) ∧
    formatPieData none =
      [⟨"Positive", 0, "#10B981"⟩, ⟨"Negative", 0, "#EF4444"⟩,
        ⟨"Neutral", 0, "#6B7280"⟩] ∧
    (∀ (total : Nat) (avg : ℚ),
      formatPieData (some ⟨total, avg, none⟩) =
        [⟨"Positive", 0, "#10B981"⟩, ⟨"Negative", 0, "#EF4444"⟩,
          ⟨"Neutral", 0, "#6B7280"⟩]) ∧
    (∀ (total : Nat) (avg : ℚ),
      formatPieData (some ⟨total, avg, some ⟨none, none, none⟩⟩) =
        [⟨"Positive", 0, "#10B981"⟩, ⟨"Negative", 0, "#EF4444"⟩,
          ⟨"Neutral", 0, "#6B7280"⟩]) ∧
    initialStats.total_articles = 0 ∧ initialStats.average_sentiment = 0 ∧
    initialStats.top_tickers = [] :=
  ⟨rfl, fun _ => rfl, rfl, fun _ _ => rfl, fun _ _ => rfl, rfl, rfl, rfl⟩

/-! ### C8: recency ordering of the archive search -/

/-- C8: for every response list and every choice of the ticker and
sentiment filters, the archive search output under the date sort is
ordered newest first: each adjacent pair has non-increasing published
time. -/
theorem C8_search_sorted_by_recency (selectedTicker sentimentFilter : String)
    (response : List FeedArticle) :
    (searchArticles selectedTicker sentimentFilter "date" response).Chain'
      (fun a b => b.published_at ≤ a.published_at) := by
  unfold searchArticles
  simp only []
  exact mergeSort_dateDescLe_chain _

/-! ### C9: the news-feed filter with no active filter -/

/-- C9: with the sentiment filter set to "all" and an empty ticker
filter the news-feed filter keeps every article in order: it is the
identity. -/
theorem C9_filter_identity (articles : List FeedArticle) :
    filteredArticles "all" "" articles = articles := by
  simp [filteredArticles, matchesSentiment, matchesTicker]

/-! ### C10: the pagination range invariant -/

/-- C10: starting from any page within 1..totalPages, every sequence of
Previous and Next actions keeps the current page within
1..totalPages. -/
theorem C10_page_range_invariant (totalPages currentPage : Int)
    (h1 : 1 ≤ currentPage) (h2 : currentPage ≤ totalPages)
    (actions : List PageAction) :
    1 ≤ runPageActions totalPages currentPage actions ∧
      runPageActions totalPages currentPage actions ≤ totalPages := by
  induction actions generalizing currentPage with
  | nil => exact ⟨h1, h2⟩
  | cons a as ih =>
      cases a <;>
        · refine ih _ ?_ ?_ <;> simp [applyPageAction] <;> omega

/-- C10 witness: from page 2 of 3, the sequence Next, Next, Previous,
Previous, Previous stays within 1..3. -/
theorem C10_page_range_witness :
    (1 : Int) ≤ 2 ∧ (2 : Int) ≤ 3 ∧
      (1 ≤ runPageActions 3 2 [.next, .next, .previous, .previous, .previous] ∧
        runPageActions 3 2 [.next, .next, .previous, .previous, .previous] ≤ 3) :=
  ⟨by norm_num, by norm_num,
    C10_page_range_invariant 3 2 (by norm_num) (by norm_num) _⟩

end Sniper
